import Mathlib

/-!
Verification development for the hybrid retrieval and confidence-validation
core of the ANTT_RAG_V5 repository.

Shallow embedding of:
* `src/backup_20251226_1106/src/services/retrieval_service.py`
  (`DocumentFilter`, `HybridRetriever`),
* `src/src/utils/validator.py` (`ResponseValidator`),
* `src/src/services/answer_service.py` (`ConfidenceLevel`, `Evidence`).

Modelling conventions:
* Python floats are embedded as exact rationals (`ℚ`); float literals such
  as `0.7` become `7/10`.
* Python `dict` metadata is embedded as a structure of `Option` fields; a
  missing key is `none` and `dict.get(key, default)` is `Option.getD`.
* `sorted(..., key=..., reverse=True)` (a stable descending sort) is
  embedded as `List.insertionSort` with the non-strict relation
  `fun a b => key b ≤ key a`, which is stable and sorts descending.
* `np.argsort(scores)[::-1][:k]` is embedded as a stable descending sort of
  the index list (numpy's default quicksort leaves tie order unspecified,
  so a concrete stable choice is made).
* The retriever is modelled in the state reached after `initialize_bm25`:
  the vector backend is a fixed ranked result list for the query under
  consideration (`similarity_search_with_score(query, k)` returns its first
  `k` entries), the BM25 index is the corpus together with one BM25 score
  per corpus entry, and the reranker, when configured, is a per-document
  relevance score for the query.  Wall-clock timing, logging and the
  `rerank_score` metadata write-back are not modelled; no claim depends on
  them.
* Python truthiness tests on arguments (`vector_weight or config...`,
  `if top_k:`, `if start_date:`, `if not source_types:`) are embedded
  explicitly: `none`, `0`, the empty string and the empty list are falsy.
-/

/-- Embeds the metadata dict of a `langchain` `Document` as used by the
repository: only the keys the code reads are modelled, a missing key is
`none`. -/
structure DocMetadata where
  source : Option String := none
  page : Option Int := none
  tipo : Option String := none
  precedencia : Option Int := none
  status : Option String := none
  vigencia_inicio : Option String := none
  vigencia_fim : Option String := none
deriving DecidableEq, Repr, Inhabited

/-- Embeds `langchain_core.documents.Document`. -/
structure Document where
  page_content : String := ""
  metadata : DocMetadata := {}
deriving DecidableEq, Repr, Inhabited

/-! ### `DocumentFilter` (retrieval_service.py, lines 38-119) -/

/-- `DocumentFilter.filter_by_status`: keeps documents whose metadata
`status` (default `"Vigente"` when the key is missing) equals `status`. -/
def filter_by_status (documents : List Document) (status : String) : List Document :=
  documents.filter (fun doc => decide (doc.metadata.status.getD "Vigente" = status))

/-- `DocumentFilter.filter_by_precedence`: with a ceiling, keeps documents
whose `precedencia` (default 99) is `≤ min_precedence`. -/
def filter_by_precedence (documents : List Document) (min_precedence : Option Int) :
    List Document :=
  match min_precedence with
  | none => documents
  | some m => documents.filter (fun doc => decide (doc.metadata.precedencia.getD 99 ≤ m))

/-- `DocumentFilter.filter_by_date_range`: the Python guards `if start_date:`
and `if end_date:` are falsy for `None` and for the empty string. -/
def filter_by_date_range (documents : List Document)
    (start_date end_date : Option String) : List Document :=
  let f1 :=
    match start_date with
    | some s =>
      if s = "" then documents
      else documents.filter (fun doc => decide (s ≤ doc.metadata.vigencia_inicio.getD ""))
    | none => documents
  match end_date with
  | some e =>
    if e = "" then f1
    else f1.filter (fun doc => decide (doc.metadata.vigencia_fim.getD "9999-12-31" ≤ e))
  | none => f1

/-- `DocumentFilter.filter_by_source_type`: `if not source_types:` is falsy
for `None` and for the empty list. -/
def filter_by_source_type (documents : List Document)
    (source_types : Option (List String)) : List Document :=
  match source_types with
  | none => documents
  | some ts =>
    if ts = [] then documents
    else documents.filter (fun doc => ts.contains (doc.metadata.tipo.getD ""))

/-- The keyword arguments accepted by `DocumentFilter.apply_all_filters`,
with the Python defaults. -/
structure FilterKwargs where
  status : String := "Vigente"
  min_precedence : Option Int := none
  start_date : Option String := none
  end_date : Option String := none
  source_types : Option (List String) := none
deriving DecidableEq, Repr, Inhabited

/-- `DocumentFilter.apply_all_filters`: the four filters in sequence. -/
def apply_all_filters (documents : List Document) (fk : FilterKwargs) : List Document :=
  filter_by_source_type
    (filter_by_date_range
      (filter_by_precedence (filter_by_status documents fk.status) fk.min_precedence)
      fk.start_date fk.end_date)
    fk.source_types

/-! Normal form of the pipeline: a single `List.filter`. -/

/-- Predicate form of `filter_by_status`. -/
def status_pred (status : String) (doc : Document) : Bool :=
  decide (doc.metadata.status.getD "Vigente" = status)

/-- Predicate form of `filter_by_precedence` (`true` when no ceiling). -/
def precedence_pred (min_precedence : Option Int) (doc : Document) : Bool :=
  match min_precedence with
  | none => true
  | some m => decide (doc.metadata.precedencia.getD 99 ≤ m)

/-- Predicate form of the `start_date` half of `filter_by_date_range`. -/
def start_date_pred (start_date : Option String) (doc : Document) : Bool :=
  match start_date with
  | none => true
  | some s => if s = "" then true else decide (s ≤ doc.metadata.vigencia_inicio.getD "")

/-- Predicate form of the `end_date` half of `filter_by_date_range`. -/
def end_date_pred (end_date : Option String) (doc : Document) : Bool :=
  match end_date with
  | none => true
  | some e => if e = "" then true else decide (doc.metadata.vigencia_fim.getD "9999-12-31" ≤ e)

/-- Predicate form of `filter_by_source_type` (`true` when no allow-list). -/
def source_type_pred (source_types : Option (List String)) (doc : Document) : Bool :=
  match source_types with
  | none => true
  | some ts => if ts = [] then true else ts.contains (doc.metadata.tipo.getD "")

theorem filter_by_status_eq (documents : List Document) (status : String) :
    filter_by_status documents status = documents.filter (status_pred status) := rfl

theorem filter_by_precedence_eq (documents : List Document) (mp : Option Int) :
    filter_by_precedence documents mp = documents.filter (precedence_pred mp) := by
  cases mp
  · show documents = documents.filter (fun _ => true)
    simp
  · rfl

theorem filter_by_date_range_eq (documents : List Document) (sd ed : Option String) :
    filter_by_date_range documents sd ed =
      (documents.filter (start_date_pred sd)).filter (end_date_pred ed) := by
  unfold filter_by_date_range start_date_pred end_date_pred
  cases sd <;> cases ed <;> dsimp only <;> (try split_ifs) <;> simp_all

theorem filter_by_source_type_eq (documents : List Document) (ty : Option (List String)) :
    filter_by_source_type documents ty = documents.filter (source_type_pred ty) := by
  unfold filter_by_source_type source_type_pred
  cases ty <;> dsimp only <;> (try split_ifs) <;> simp_all

/-- The conjunction of the four filter predicates, nested the way repeated
`List.filter_filter` collapses the pipeline (outermost filter first). -/
def passes_all_filters (fk : FilterKwargs) (doc : Document) : Bool :=
  source_type_pred fk.source_types doc &&
    (end_date_pred fk.end_date doc &&
      (start_date_pred fk.start_date doc &&
        (precedence_pred fk.min_precedence doc && status_pred fk.status doc)))

theorem apply_all_filters_eq_filter (documents : List Document) (fk : FilterKwargs) :
    apply_all_filters documents fk = documents.filter (passes_all_filters fk) := by
  rw [apply_all_filters, filter_by_status_eq, filter_by_precedence_eq,
    filter_by_date_range_eq, filter_by_source_type_eq]
  simp only [List.filter_filter]
  rfl

theorem apply_all_filters_length_le (documents : List Document) (fk : FilterKwargs) :
    (apply_all_filters documents fk).length ≤ documents.length := by
  rw [apply_all_filters_eq_filter]
  exact List.length_filter_le _ _

/-- C9: applying the full governance pipeline twice equals applying it
once, for every document list and every filter criteria. -/
theorem governance_filter_idempotent (documents : List Document) (fk : FilterKwargs) :
    apply_all_filters (apply_all_filters documents fk) fk = apply_all_filters documents fk := by
  rw [apply_all_filters_eq_filter, apply_all_filters_eq_filter, List.filter_filter]
  exact List.filter_congr (fun a _ => by cases passes_all_filters fk a <;> rfl)

/-- C10: a document with no `status` key is treated as `"Vigente"` and kept
by the default status filter; a document with no `precedencia` key is
treated as precedence 99 and kept by a precedence ceiling iff the ceiling
is at least 99. -/
theorem missing_metadata_defaults :
    (∀ d : Document, d.metadata.status = none →
      filter_by_status [d] "Vigente" = [d]) ∧
    (∀ (d : Document) (m : Int), d.metadata.precedencia = none →
      filter_by_precedence [d] (some m) = if 99 ≤ m then [d] else []) := by
  constructor
  · intro d h
    simp [filter_by_status, h]
  · intro d m h
    by_cases hm : (99 : Int) ≤ m <;> simp [filter_by_precedence, h, hm]

theorem missing_metadata_defaults_witness :
    (({} : DocMetadata).status = none ∧
      filter_by_status [{ page_content := "x" }] "Vigente" = [{ page_content := "x" }]) ∧
    (({} : DocMetadata).precedencia = none ∧
      filter_by_precedence [{ page_content := "x" }] (some 100) =
        if (99 : Int) ≤ 100 then [{ page_content := "x" }] else []) :=
  ⟨⟨rfl, missing_metadata_defaults.1 { page_content := "x" } rfl⟩,
   ⟨rfl, missing_metadata_defaults.2 { page_content := "x" } 100 rfl⟩⟩

/-! ### `ResponseValidator` (validator.py) and answer-service types -/

/-- `ConfidenceLevel` from `answer_service.py`. -/
inductive ConfidenceLevel
  | ALTA
  | MEDIA
  | BAIXA
  | INSUFICIENTE
deriving DecidableEq, Repr

/-- `Evidence` from `answer_service.py`. -/
structure Evidence where
  source : String
  page : Option Int
  document_type : String
  excerpt : String
  score : ℚ
  precedence : Option Int := none
deriving DecidableEq, Repr

/-- Python's `str.lower()` restricted to ASCII letters (Lean's
`Char.toLower`); the validator's pattern constants are already lower-case,
so this only diverges from CPython on non-ASCII upper-case input. -/
def py_lower (s : String) : String :=
  ⟨s.data.map Char.toLower⟩

def chars_is_prefix : List Char → List Char → Bool
  | [], _ => true
  | _ :: _, [] => false
  | a :: as, b :: bs => decide (a = b) && chars_is_prefix as bs

/-- `re.search` of a literal pattern: substring containment. -/
def chars_contains (pat : List Char) : List Char → Bool
  | [] => chars_is_prefix pat []
  | c :: t => chars_is_prefix pat (c :: t) || chars_contains pat t

def str_search (pat s : String) : Bool :=
  chars_contains pat.data s.data

/-- `ResponseValidator._is_no_answer`: the five `no_answer_patterns`, with
the character class `encontrad[oa]` expanded to its two alternatives. -/
def is_no_answer (answer : String) : Bool :=
  let l := py_lower answer
  str_search "não localizado" l ||
  (str_search "não foi encontrado" l || str_search "não foi encontrada" l) ||
  str_search "insuficiente" l ||
  str_search "não há informação" l ||
  str_search "não consta" l

/-- `ResponseValidator._detect_conflicts`: the three `conflict_patterns`. -/
def detect_conflicts (answer : String) : Bool :=
  let l := py_lower answer
  str_search "conflito normativo" l ||
  str_search "interpretações conflitantes" l ||
  str_search "divergência" l

/-- Splits off the maximal leading digit run. -/
def read_digits : List Char → List Char × List Char
  | [] => ([], [])
  | c :: t =>
    if c.isDigit then
      let p := read_digits t
      (c :: p.1, p.2)
    else ([], c :: t)

def digits_to_nat (ds : List Char) : ℕ :=
  ds.foldl (fun n c => 10 * n + (c.toNat - '0'.toNat)) 0

/-- The citation value starting right after a `'['`, if the text there is
`digits+ ']'`. -/
def citation_at (t : List Char) : List ℕ :=
  match read_digits t with
  | (d :: ds, ']' :: _) => [digits_to_nat (d :: ds)]
  | _ => []

/-- `re.findall(r"\[(\d+)\]", answer)` as integers.  A match `[ddd]`
contains no inner `'['`, so matches of this pattern can never overlap and
scanning every position finds exactly the non-overlapping matches `findall`
returns (the `c.isdigit()` re-check in the source is always true for these
matches). -/
def find_citations : List Char → List ℕ
  | [] => []
  | c :: t => (if c = '[' then citation_at t else []) ++ find_citations t

/-- Python `str.split()` whitespace (ASCII part). -/
def is_py_space (c : Char) : Bool :=
  c = ' ' || c = '\t' || c = '\n' || c = '\r' || c = '\x0b' || c = '\x0c'

def count_words_aux : Bool → List Char → ℕ
  | _, [] => 0
  | inWord, c :: t =>
    if is_py_space c then count_words_aux false t
    else (if inWord then 0 else 1) + count_words_aux true t

/-- `len(answer.split())`: number of maximal non-whitespace runs. -/
def count_words (s : String) : ℕ :=
  count_words_aux false s.data

/-- `ResponseValidator._validate_citations`. -/
def validate_citations (answer : String) (num_evidences : ℕ) : ℚ :=
  let citations := find_citations answer.data
  if citations = [] then 0
  else
    let valid_citations := citations.filter (fun c => decide (1 ≤ c) && decide (c ≤ num_evidences))
    if valid_citations = [] then 0
    else
      let unique_citations := valid_citations.dedup.length
      let citation_coverage : ℚ :=
        if 0 < num_evidences then (unique_citations : ℚ) / (num_evidences : ℚ) else 0
      let citation_density0 : ℚ :=
        (valid_citations.length : ℚ) / ((max (count_words answer) 1 : ℕ) : ℚ)
      let citation_density := min (citation_density0 * 100) 1
      min (citation_coverage * (7/10) + citation_density * (3/10)) 1

/-- Scans for `[A-Z]` after optional further whitespace. -/
def rest_upper : List Char → Bool
  | [] => false
  | c :: t => if is_py_space c then rest_upper t else decide ('A' ≤ c) && decide (c ≤ 'Z')

/-- `\s+[A-Z]`: at least one whitespace, then an ASCII capital. -/
def ws_then_upper : List Char → Bool
  | [] => false
  | c :: t => is_py_space c && rest_upper t

/-- `re.search(r"\.\s+[A-Z]", answer) is not None`. -/
def has_structure : List Char → Bool
  | [] => false
  | c :: t => (decide (c = '.') && ws_then_upper t) || has_structure t

/-- `ResponseValidator._validate_completeness` (the `question` argument is
unused in the source as well). -/
def validate_completeness (answer question : String) : ℚ :=
  let answer_length := answer.length
  if answer_length < 100 then 3/10
  else
    let length_score : ℚ := if 500 ≤ answer_length then 1 else (answer_length : ℚ) / 500
    let structure_score : ℚ := if has_structure answer.data then 1 else 7/10
    min (length_score * (6/10) + structure_score * (4/10)) 1

/-- `ResponseValidator._validate_evidence_quality`. -/
def validate_evidence_quality (evidences : List Evidence) (avg_score : ℚ) : ℚ :=
  if evidences = [] then 0
  else
    let num_evidences := evidences.length
    let quantity_score : ℚ := min ((num_evidences : ℚ) / 5) 1
    let relevance_score := min avg_score 1
    let precedence_scores :=
      evidences.filterMap (fun e => e.precedence.map (fun p => 1 - (p : ℚ) / 100))
    let precedence_score : ℚ :=
      if precedence_scores = [] then 1/2
      else precedence_scores.sum / (precedence_scores.length : ℚ)
    min (quantity_score * (3/10) + relevance_score * (5/10) + precedence_score * (2/10)) 1

/-- `ResponseValidator._calculate_confidence`: the `scores` dict is carried
as its value list in insertion order. -/
def calculate_confidence (scores : List ℚ) (num_evidences : ℕ) : ConfidenceLevel :=
  let avg_score : ℚ := if scores = [] then 0 else scores.sum / (scores.length : ℚ)
  let adjusted :=
    if num_evidences < 2 then avg_score * (7/10)
    else if 5 ≤ num_evidences then avg_score * (11/10)
    else avg_score
  let final := min adjusted 1
  if 8/10 ≤ final then ConfidenceLevel.ALTA
  else if 6/10 ≤ final then ConfidenceLevel.MEDIA
  else if 4/10 ≤ final then ConfidenceLevel.BAIXA
  else ConfidenceLevel.INSUFICIENTE

/-- Result dict of `ResponseValidator.validate_response` (`warnings=None`
is modelled as the empty list; `scores` is the dict's value list in
insertion order: citations, completeness, evidence_quality). -/
structure ValidationOutcome where
  is_valid : Bool
  confidence : ConfidenceLevel
  warnings : List String
  scores : List ℚ
deriving Repr

/-- `ResponseValidator.validate_response`. -/
def validate_response (question answer : String) (evidences : List Evidence)
    (avg_score : ℚ) : ValidationOutcome :=
  if is_no_answer answer then
    ⟨true, ConfidenceLevel.INSUFICIENTE, ["Resposta indica informação insuficiente"], []⟩
  else
    let citation_score := validate_citations answer evidences.length
    let completeness_score := validate_completeness answer question
    let evidence_score := validate_evidence_quality evidences avg_score
    let warnings :=
      (if citation_score < 1/2 then ["Poucas citações encontradas na resposta"] else []) ++
      (if completeness_score < 1/2 then ["Resposta pode estar incompleta"] else []) ++
      (if evidence_score < 1/2 then ["Qualidade das evidências é baixa"] else [])
    let scores := [citation_score, completeness_score, evidence_score]
    if detect_conflicts answer then
      ⟨true, ConfidenceLevel.BAIXA, warnings ++ ["Possível conflito normativo detectado"], scores⟩
    else
      ⟨true, calculate_confidence scores evidences.length, warnings, scores⟩

/-! ### Claims C7 and C8: confidence validation -/

theorem validate_citations_zero_evidences (answer : String) :
    validate_citations answer 0 = 0 := by
  unfold validate_citations
  have hval : List.filter (fun c => decide (1 ≤ c) && decide (c ≤ 0))
      (find_citations answer.data) = [] := by
    rw [List.filter_eq_nil_iff]
    intro a _
    simp only [Bool.and_eq_true, decide_eq_true_eq]
    omega
  dsimp only
  rw [hval]
  split_ifs <;> first | rfl | simp_all

theorem validate_evidence_quality_nil (avg_score : ℚ) :
    validate_evidence_quality [] avg_score = 0 := rfl

theorem validate_completeness_le_one (answer question : String) :
    validate_completeness answer question ≤ 1 := by
  unfold validate_completeness
  dsimp only
  split_ifs <;> norm_num

/-- C7 (counterexample): with an empty evidence list, an answer that
matches a conflict pattern is classified BAIXA, not INSUFICIENTE. -/
theorem zero_evidence_conflict_counterexample :
    (validate_response "" "divergência" [] 0).confidence ≠
      ConfidenceLevel.INSUFICIENTE := by
  decide

/-- C7 (amended): an empty evidence list yields INSUFICIENTE for every
question, answer and average score, unless the answer matches one of the
conflict patterns, in which case the conflict short-circuit yields BAIXA
instead. -/
theorem zero_evidence_insuficiente_unless_conflict
    (question answer : String) (avg_score : ℚ)
    (h : detect_conflicts answer = false) :
    (validate_response question answer [] avg_score).confidence =
      ConfidenceLevel.INSUFICIENTE := by
  unfold validate_response
  split_ifs with h1 h2
  · rfl
  · rw [h] at h2
    exact absurd h2 (by simp)
  · dsimp only
    rw [List.length_nil, validate_citations_zero_evidences, validate_evidence_quality_nil]
    have hc : validate_completeness answer question ≤ 1 := validate_completeness_le_one answer question
    set c2 := validate_completeness answer question with hc2
    unfold calculate_confidence
    have hne : ¬([0, c2, 0] : List ℚ) = [] := by simp
    have hsum : ([0, c2, 0] : List ℚ).sum = c2 := by simp
    have hlen : ((([0, c2, 0] : List ℚ).length : ℚ)) = 3 := by simp
    simp only [if_neg hne, hsum, hlen, if_pos (by norm_num : (0:ℕ) < 2)]
    have hfin : min (c2 / 3 * (7/10)) 1 < 4/10 :=
      lt_of_le_of_lt (min_le_left _ _) (by linarith)
    rw [if_neg (by linarith), if_neg (by linarith), if_neg (by linarith)]

theorem zero_evidence_insuficiente_witness :
    detect_conflicts "ok" = false ∧
      (validate_response "q" "ok" [] 0).confidence = ConfidenceLevel.INSUFICIENTE :=
  ⟨by decide, zero_evidence_insuficiente_unless_conflict "q" "ok" 0 (by decide)⟩

/-- The aggregation rule exactly as the specification words it: average the
three component scores; multiply by 0.7 if evidence count < 2, by 1.1 if
evidence count ≥ 5 (capped at 1.0); map by the fixed thresholds. -/
def confidence_spec (citation completeness evidence_quality : ℚ)
    (evidence_count : ℕ) : ConfidenceLevel :=
  let avg := (citation + completeness + evidence_quality) / 3
  let adjusted :=
    if evidence_count < 2 then avg * (7/10)
    else if 5 ≤ evidence_count then min (avg * (11/10)) 1
    else avg
  if 8/10 ≤ adjusted then ConfidenceLevel.ALTA
  else if 6/10 ≤ adjusted then ConfidenceLevel.MEDIA
  else if 4/10 ≤ adjusted then ConfidenceLevel.BAIXA
  else ConfidenceLevel.INSUFICIENTE

theorem calculate_confidence_triple (a b c : ℚ) (n : ℕ) :
    calculate_confidence [a, b, c] n = confidence_spec a b c n := by
  unfold calculate_confidence confidence_spec
  have hne : ¬([a, b, c] : List ℚ) = [] := by simp
  have hsum : ([a, b, c] : List ℚ).sum = a + b + c := by simp; ring
  have hlen : ((([a, b, c] : List ℚ).length : ℚ)) = 3 := by simp
  simp only [if_neg hne, hsum, hlen]
  set avg := (a + b + c) / 3 with havg
  rcases lt_or_le n 2 with h2 | h2
  · simp only [if_pos h2]
    rcases le_or_lt (avg * (7/10)) 1 with hle | hlt
    · rw [min_eq_left hle]
    · rw [min_eq_right (le_of_lt hlt)]
      rw [if_pos (by linarith : (8:ℚ)/10 ≤ 1), if_pos (by linarith : (8:ℚ)/10 ≤ avg * (7/10))]
  · rcases le_or_lt 5 n with h5 | h5
    · simp only [if_neg (by omega : ¬n < 2), if_pos h5]
    · simp only [if_neg (by omega : ¬n < 2), if_neg (by omega : ¬5 ≤ n)]
      rcases le_or_lt avg 1 with hle | hlt
      · rw [min_eq_left hle]
      · rw [min_eq_right (le_of_lt hlt)]
        rw [if_pos (by linarith : (8:ℚ)/10 ≤ 1), if_pos (by linarith : (8:ℚ)/10 ≤ avg)]

/-- C8: whenever neither the no-answer nor the conflict short-circuit
fires, the returned confidence equals the spec's aggregation of the three
component scores and the evidence count.  Determinism is immediate: every
function involved is pure. -/
theorem final_aggregation_confidence_spec
    (question answer : String) (evidences : List Evidence) (avg_score : ℚ)
    (hno : is_no_answer answer = false) (hc : detect_conflicts answer = false) :
    (validate_response question answer evidences avg_score).confidence =
      confidence_spec (validate_citations answer evidences.length)
        (validate_completeness answer question)
        (validate_evidence_quality evidences avg_score) evidences.length := by
  unfold validate_response
  rw [hno, hc]
  simp only [Bool.false_eq_true, if_false]
  exact calculate_confidence_triple _ _ _ _

theorem final_aggregation_confidence_spec_witness :
    is_no_answer "ok" = false ∧ detect_conflicts "ok" = false ∧
      (validate_response "q" "ok" [] 0).confidence =
        confidence_spec (validate_citations "ok" 0)
          (validate_completeness "ok" "q") (validate_evidence_quality [] 0) 0 :=
  ⟨by decide, by decide,
    final_aggregation_confidence_spec "q" "ok" [] 0 (by decide) (by decide)⟩

/-! ### `HybridRetriever` (retrieval_service.py, lines 122-420) -/

/-- `RetrievalStrategy` enum. -/
inductive RetrievalStrategy
  | VECTOR_ONLY
  | BM25_ONLY
  | HYBRID
  | HYBRID_RERANK
deriving DecidableEq, Repr

/-- The configuration fields `retrieve`/`hybrid_search` read. -/
structure RetrievalConfig where
  vector_weight : ℚ
  bm25_weight : ℚ
  default_k : ℕ
deriving Repr

/-- The retriever state for one fixed query, after `initialize_bm25`:
`vres` is the vector backend's full ranking for the query
(`similarity_search_with_score(query, k)` returns its first `k` entries);
`bm25_documents`/`bm25_scores` are the BM25 corpus and its per-document
scores for the query; `reranker` is the CrossEncoder relevance score per
document for the query, when configured. -/
structure RetrieverState where
  vres : List (Document × ℚ)
  bm25_documents : List Document
  bm25_scores : List ℚ
  reranker : Option (Document → ℚ)
  config : RetrievalConfig

/-- `HybridRetriever.vector_search` (no metadata filter is ever passed by
`retrieve`). -/
def vector_search (st : RetrieverState) (k : ℕ) : List Document × List ℚ :=
  ((st.vres.take k).map Prod.fst, (st.vres.take k).map Prod.snd)

/-- `np.argsort(scores)[::-1]`: index list sorted by descending score
(stable; numpy's unstable default sort leaves tie order unspecified). -/
def argsort_desc (scores : List ℚ) : List ℕ :=
  List.insertionSort (fun i j => scores.getD j 0 ≤ scores.getD i 0) (List.range scores.length)

/-- `HybridRetriever.bm25_search` on an initialized index. -/
def bm25_search (st : RetrieverState) (k : ℕ) : List Document × List ℚ :=
  let top_indices := (argsort_desc st.bm25_scores).take k
  (top_indices.map (fun i => st.bm25_documents.getD i default),
   top_indices.map (fun i => st.bm25_scores.getD i 0))

/-- `HybridRetriever._normalize_scores`. -/
def normalize_scores : List ℚ → List ℚ
  | [] => []
  | s :: t =>
    let min_score := t.foldl min s
    let max_score := t.foldl max s
    if max_score = min_score then List.replicate (s :: t).length 1
    else (s :: t).map (fun x => (x - min_score) / (max_score - min_score))

/-- `HybridRetriever._get_doc_id`. -/
def get_doc_id (doc : Document) : String :=
  (doc.metadata.source.getD "") ++ "_" ++ toString (doc.metadata.page.getD 0)

/-- One entry of the `doc_scores` dict: key, document, fused score.  The
dict is embedded as an association list in insertion order, which is how
Python dicts iterate. -/
abbrev DocEntry := String × Document × ℚ

/-- Body of the first fusion loop of `hybrid_search`: the vector pair is
written into `doc_scores` (overwriting in place on a duplicate key, as
Python dict assignment does, keeping the key's position). -/
def fuse_vector_step (vector_weight : ℚ) (acc : List DocEntry) (p : Document × ℚ) :
    List DocEntry :=
  let doc_id := get_doc_id p.1
  if acc.any (fun e => decide (e.1 = doc_id)) then
    acc.map (fun e => if e.1 = doc_id then (e.1, p.1, p.2 * vector_weight) else e)
  else acc ++ [(doc_id, p.1, p.2 * vector_weight)]

/-- The first fusion loop of `hybrid_search`. -/
def fuse_vector (vector_weight : ℚ) (pairs : List (Document × ℚ)) : List DocEntry :=
  pairs.foldl (fuse_vector_step vector_weight) []

/-- Body of the second fusion loop of `hybrid_search`: a BM25 pair adds its
weighted score to an existing entry in place or appends a new entry. -/
def fuse_bm25_step (bm25_weight : ℚ) (acc : List DocEntry) (p : Document × ℚ) :
    List DocEntry :=
  let doc_id := get_doc_id p.1
  if acc.any (fun e => decide (e.1 = doc_id)) then
    acc.map (fun e => if e.1 = doc_id then (e.1, e.2.1, e.2.2 + p.2 * bm25_weight) else e)
  else acc ++ [(doc_id, p.1, p.2 * bm25_weight)]

/-- The second fusion loop of `hybrid_search`. -/
def fuse_bm25 (bm25_weight : ℚ) (pairs : List (Document × ℚ)) (acc0 : List DocEntry) :
    List DocEntry :=
  pairs.foldl (fuse_bm25_step bm25_weight) acc0

/-- The `doc_scores` dict after both fusion loops. -/
def fused_entries (vector_weight bm25_weight : ℚ)
    (vpairs bpairs : List (Document × ℚ)) : List DocEntry :=
  fuse_bm25 bm25_weight bpairs (fuse_vector vector_weight vpairs)

/-- `sorted(doc_scores.values(), key=lambda x: x["score"], reverse=True)`:
stable descending sort by score. -/
def sort_desc (l : List (Document × ℚ)) : List (Document × ℚ) :=
  List.insertionSort (fun a b => b.2 ≤ a.2) l

/-- `vector_weight or self.config...`: Python `or` falls back to the
configured weight when the argument is `None` **or** `0`/`0.0` (falsy). -/
def py_or_weight (w : Option ℚ) (cfg_weight : ℚ) : ℚ :=
  match w with
  | none => cfg_weight
  | some x => if x = 0 then cfg_weight else x

/-- `HybridRetriever.hybrid_search` on an initialized BM25 index (the
`bm25 is None` degradation branch is outside the modelled state). -/
def hybrid_search (st : RetrieverState) (k : ℕ)
    (vector_weight bm25_weight : Option ℚ) : List Document × List ℚ :=
  let vw := py_or_weight vector_weight st.config.vector_weight
  let bw := py_or_weight bm25_weight st.config.bm25_weight
  let v := vector_search st (k * 2)
  let b := bm25_search st (k * 2)
  let vector_scores_norm := normalize_scores v.2
  let bm25_scores_norm := normalize_scores b.2
  let doc_scores := fused_entries vw bw (v.1.zip vector_scores_norm) (b.1.zip bm25_scores_norm)
  let sorted_results := (sort_desc (doc_scores.map (fun e => e.2))).take k
  (sorted_results.map Prod.fst, sorted_results.map Prod.snd)

/-- `HybridRetriever.rerank` (the `rerank_score` metadata write-back is
not modelled).  `if top_k:` is falsy for `None` and `0`. -/
def rerank (st : RetrieverState) (documents : List Document) (top_k : Option ℕ) :
    List Document × List ℚ :=
  match st.reranker with
  | none => (documents, List.replicate documents.length 1)
  | some predict =>
    if documents = [] then ([], [])
    else
      let scores := documents.map predict
      let sorted_indices :=
        match top_k with
        | none => argsort_desc scores
        | some t => if t = 0 then argsort_desc scores else (argsort_desc scores).take t
      (sorted_indices.map (fun i => documents.getD i default),
       sorted_indices.map (fun i => scores.getD i 0))

/-- `RetrievalResult` (processing time and the diagnostics dict are
wall-clock data and are not modelled). -/
structure RetrievalResult where
  documents : List Document
  scores : List ℚ
  strategy : RetrievalStrategy

/-- The strategy dispatch block of `retrieve`: HYBRID_RERANK requests `2k`
candidates from fusion and reranks them down to `k`. -/
def strategy_search (st : RetrieverState) (k : ℕ) :
    RetrievalStrategy → List Document × List ℚ
  | RetrievalStrategy.VECTOR_ONLY => vector_search st k
  | RetrievalStrategy.BM25_ONLY => bm25_search st k
  | RetrievalStrategy.HYBRID => hybrid_search st k none none
  | RetrievalStrategy.HYBRID_RERANK =>
    rerank st (hybrid_search st (k * 2) none none).1 (some k)

/-- The governance block of `retrieve`: when filters are requested and
criteria were supplied, the documents are filtered and the score list is
truncated to the filtered length (`scores = scores[:len(documents)]`). -/
def apply_governance (pair : List Document × List ℚ) (apply_filters : Bool)
    (filter_kwargs : Option FilterKwargs) : List Document × List ℚ :=
  if apply_filters then
    match filter_kwargs with
    | some fk =>
      let documents := apply_all_filters pair.1 fk
      (documents, pair.2.take documents.length)
    | none => pair
  else pair

/-- `HybridRetriever.retrieve`.  `k or self.config.retrieval.default_k`
falls back for `None` and `0`. -/
def retrieve (st : RetrieverState) (k : Option ℕ) (strategy : RetrievalStrategy)
    (apply_filters : Bool) (filter_kwargs : Option FilterKwargs) : RetrievalResult :=
  let k := match k with
    | none => st.config.default_k
    | some n => if n = 0 then st.config.default_k else n
  let pair := strategy_search st k strategy
  let final := apply_governance pair apply_filters filter_kwargs
  ⟨final.1, final.2, strategy⟩

/-! ### Claim C6: score normalization -/

theorem foldl_min_le : ∀ (t : List ℚ) (s x : ℚ), x ∈ s :: t → t.foldl min s ≤ x
  | [], s, x, h => by
    rw [List.mem_singleton] at h
    simp [h]
  | a :: t, s, x, h => by
    rw [List.foldl_cons]
    rcases List.mem_cons.mp h with rfl | h2
    · exact le_trans (foldl_min_le t (min x a) _ (List.mem_cons_self _ _)) (min_le_left _ _)
    · rcases List.mem_cons.mp h2 with rfl | h3
      · exact le_trans (foldl_min_le t (min s x) _ (List.mem_cons_self _ _)) (min_le_right _ _)
      · exact foldl_min_le t (min s a) x (List.mem_cons_of_mem _ h3)

theorem le_foldl_max : ∀ (t : List ℚ) (s x : ℚ), x ∈ s :: t → x ≤ t.foldl max s
  | [], s, x, h => by
    rw [List.mem_singleton] at h
    simp [h]
  | a :: t, s, x, h => by
    rw [List.foldl_cons]
    rcases List.mem_cons.mp h with rfl | h2
    · exact le_trans (le_max_left _ _) (le_foldl_max t (max x a) _ (List.mem_cons_self _ _))
    · rcases List.mem_cons.mp h2 with rfl | h3
      · exact le_trans (le_max_right _ _) (le_foldl_max t (max s x) _ (List.mem_cons_self _ _))
      · exact le_foldl_max t (max s a) x (List.mem_cons_of_mem _ h3)

theorem getD_map_of_lt (l : List ℚ) (f : ℚ → ℚ) (i : ℕ) (h : i < l.length) :
    (l.map f).getD i 0 = f (l.getD i 0) := by
  rw [List.getD_eq_getElem _ _ (by simpa using h), List.getD_eq_getElem _ _ h]
  simp

/-- C6: `_normalize_scores` returns `[]` on `[]`; all 1.0 when the maximum
equals the minimum; otherwise min-max scaling; every output lies in
`[0, 1]` and the map is order-preserving position-wise. -/
theorem normalize_scores_spec :
    (normalize_scores [] = []) ∧
    (∀ (s : ℚ) (t : List ℚ), t.foldl max s = t.foldl min s →
      normalize_scores (s :: t) = List.replicate (s :: t).length 1) ∧
    (∀ (s : ℚ) (t : List ℚ), t.foldl max s ≠ t.foldl min s →
      normalize_scores (s :: t) =
        (s :: t).map (fun x => (x - t.foldl min s) / (t.foldl max s - t.foldl min s))) ∧
    (∀ (l : List ℚ), ∀ x ∈ normalize_scores l, 0 ≤ x ∧ x ≤ 1) ∧
    (∀ (l : List ℚ) (i j : ℕ), i < l.length → j < l.length →
      l.getD i 0 ≤ l.getD j 0 →
      (normalize_scores l).getD i 0 ≤ (normalize_scores l).getD j 0) := by
  have hmm : ∀ (s : ℚ) (t : List ℚ), t.foldl min s ≤ t.foldl max s := fun s t =>
    le_trans (foldl_min_le t s s (List.mem_cons_self _ _))
      (le_foldl_max t s s (List.mem_cons_self _ _))
  refine ⟨rfl, ?_, ?_, ?_, ?_⟩
  · intro s t h
    show (if t.foldl max s = t.foldl min s then _ else _) = _
    rw [if_pos h]
  · intro s t h
    show (if t.foldl max s = t.foldl min s then _ else _) = _
    rw [if_neg h]
  · intro l x hx
    match l with
    | [] => simp [normalize_scores] at hx
    | s :: t =>
      rw [show normalize_scores (s :: t) =
          (if t.foldl max s = t.foldl min s then List.replicate (s :: t).length 1
           else (s :: t).map (fun x =>
             (x - t.foldl min s) / (t.foldl max s - t.foldl min s))) from rfl] at hx
      by_cases h : t.foldl max s = t.foldl min s
      · rw [if_pos h] at hx
        rw [List.eq_of_mem_replicate hx]
        norm_num
      · rw [if_neg h] at hx
        rcases List.mem_map.mp hx with ⟨y, hy, rfl⟩
        have h1 : t.foldl min s ≤ y := foldl_min_le t s y hy
        have h2 : y ≤ t.foldl max s := le_foldl_max t s y hy
        have h3 : t.foldl min s < t.foldl max s := lt_of_le_of_ne (hmm s t) (Ne.symm h)
        constructor
        · exact div_nonneg (by linarith) (by linarith)
        · rw [div_le_one (by linarith)]
          linarith
  · intro l i j hi hj hij
    match l with
    | [] => simp at hi
    | s :: t =>
      rw [show normalize_scores (s :: t) =
          (if t.foldl max s = t.foldl min s then List.replicate (s :: t).length 1
           else (s :: t).map (fun x =>
             (x - t.foldl min s) / (t.foldl max s - t.foldl min s))) from rfl]
      by_cases h : t.foldl max s = t.foldl min s
      · rw [if_pos h]
        rw [List.getD_eq_getElem _ _ (by simpa using hi), List.getD_eq_getElem _ _ (by simpa using hj)]
        simp
      · rw [if_neg h]
        rw [getD_map_of_lt _ _ _ hi, getD_map_of_lt _ _ _ hj]
        have h3 : t.foldl min s < t.foldl max s := lt_of_le_of_ne (hmm s t) (Ne.symm h)
        exact div_le_div_of_nonneg_right (by linarith) (by linarith)

theorem normalize_scores_spec_witness :
    ((0 : ℕ) < ([(1 : ℚ), 3]).length ∧ (1 : ℕ) < ([(1 : ℚ), 3]).length ∧
      ([(1 : ℚ), 3]).getD 0 0 ≤ ([(1 : ℚ), 3]).getD 1 0) ∧
    (normalize_scores [(1 : ℚ), 3]).getD 0 0 ≤ (normalize_scores [(1 : ℚ), 3]).getD 1 0 :=
  ⟨⟨by norm_num, by norm_num, by norm_num [List.getD_cons_zero, List.getD_cons_succ]⟩,
   normalize_scores_spec.2.2.2.2 [(1 : ℚ), 3] 0 1 (by norm_num) (by norm_num)
     (by norm_num [List.getD_cons_zero, List.getD_cons_succ])⟩

/-! ### Claim C1: score truncation after governance filtering -/

/-- C1 scenario: a revoked document ranked first. -/
def doc_revogado : Document :=
  { page_content := "norma antiga",
    metadata := { source := some "a.pdf", page := some 1, status := some "Revogado" } }

/-- C1 scenario: a current document ranked second. -/
def doc_vigente : Document :=
  { page_content := "norma atual",
    metadata := { source := some "b.pdf", page := some 2, status := some "Vigente" } }

/-- C1 scenario state: the vector ranking pairs the revoked document with
score 0.9 and the current one with 0.1. -/
def st_c1 : RetrieverState :=
  { vres := [(doc_revogado, 9/10), (doc_vigente, 1/10)],
    bm25_documents := [doc_revogado, doc_vigente],
    bm25_scores := [0, 0],
    reranker := none,
    config := { vector_weight := 7/10, bm25_weight := 3/10, default_k := 5 } }

/-- C1 (code evaluated at the failing input): retrieving with the default
status filter removes the non-tail revoked document, and
`scores = scores[:len(documents)]` keeps the *first* score 0.9, so the
surviving current document is paired with the removed document's score
instead of its own 0.1 — filtering does not act on aligned
`(document, score)` pairs. -/
theorem retrieve_score_truncation_misaligns :
    (retrieve st_c1 (some 2) RetrievalStrategy.VECTOR_ONLY true (some {})).documents =
      [doc_vigente] ∧
    (retrieve st_c1 (some 2) RetrievalStrategy.VECTOR_ONLY true (some {})).scores =
      [9/10] ∧
    (9 : ℚ)/10 ≠ 1/10 := by
  refine ⟨rfl, rfl, by norm_num⟩

/-! ### Claim C2: result-length invariants -/

theorem vector_search_len (st : RetrieverState) (k : ℕ) :
    (vector_search st k).1.length = (vector_search st k).2.length ∧
      (vector_search st k).1.length ≤ k := by
  unfold vector_search
  refine ⟨by simp, ?_⟩
  simp only [List.length_map, List.length_take]
  omega

theorem bm25_search_len (st : RetrieverState) (k : ℕ) :
    (bm25_search st k).1.length = (bm25_search st k).2.length ∧
      (bm25_search st k).1.length ≤ k := by
  unfold bm25_search
  refine ⟨by simp, ?_⟩
  simp only [List.length_map, List.length_take]
  omega

theorem hybrid_search_len (st : RetrieverState) (k : ℕ) (vw bw : Option ℚ) :
    (hybrid_search st k vw bw).1.length = (hybrid_search st k vw bw).2.length ∧
      (hybrid_search st k vw bw).1.length ≤ k := by
  unfold hybrid_search
  refine ⟨by simp, ?_⟩
  simp only [List.length_map, List.length_take]
  omega

theorem rerank_len (st : RetrieverState) (docs : List Document) (tk : Option ℕ) :
    (rerank st docs tk).1.length = (rerank st docs tk).2.length ∧
    (st.reranker = none → (rerank st docs tk).1.length = docs.length) ∧
    (∀ t : ℕ, st.reranker.isSome = true → tk = some t → 1 ≤ t →
      (rerank st docs tk).1.length ≤ t) := by
  unfold rerank
  rcases hr : st.reranker with _ | f
  · refine ⟨by simp, fun _ => by simp, ?_⟩
    intro t hs _ _
    simp at hs
  · dsimp only
    split_ifs with hd
    · exact ⟨rfl, fun h => by simp at h, fun t _ _ _ => by simp⟩
    · refine ⟨by simp, fun h => by simp at h, ?_⟩
      intro t _ htk ht
      rw [htk]
      dsimp only
      rw [if_neg (by omega : ¬t = 0)]
      simp only [List.length_map, List.length_take]
      omega

theorem apply_governance_len (pair : List Document × List ℚ) (af : Bool)
    (fkw : Option FilterKwargs) (hp : pair.1.length = pair.2.length) :
    (apply_governance pair af fkw).1.length = (apply_governance pair af fkw).2.length ∧
    (apply_governance pair af fkw).1.length ≤ pair.1.length := by
  unfold apply_governance
  split_ifs
  · cases fkw with
    | none => exact ⟨hp, le_refl _⟩
    | some fk =>
      dsimp only
      have h1 := apply_all_filters_length_le pair.1 fk
      constructor
      · simp only [List.length_take]
        omega
      · exact h1
  · exact ⟨hp, le_refl _⟩

theorem retrieve_proj_eq (st : RetrieverState) (k : ℕ) (strategy : RetrievalStrategy)
    (af : Bool) (fkw : Option FilterKwargs) (hk : ¬k = 0) :
    (retrieve st (some k) strategy af fkw).documents =
      (apply_governance (strategy_search st k strategy) af fkw).1 ∧
    (retrieve st (some k) strategy af fkw).scores =
      (apply_governance (strategy_search st k strategy) af fkw).2 := by
  unfold retrieve
  dsimp only
  rw [if_neg hk]
  exact ⟨rfl, rfl⟩

/-- Shared scenario state for C2/C3: two distinct documents, no reranker
configured. -/
def doc_a : Document :=
  { page_content := "alpha", metadata := { source := some "a.pdf", page := some 1 } }

/-- Second document of the C2/C3 scenario. -/
def doc_b : Document :=
  { page_content := "beta", metadata := { source := some "b.pdf", page := some 2 } }

/-- Retriever state with two documents and no reranker. -/
def st_no_reranker : RetrieverState :=
  { vres := [(doc_a, 1), (doc_b, 0)],
    bm25_documents := [doc_a, doc_b],
    bm25_scores := [1, 2],
    reranker := none,
    config := { vector_weight := 7/10, bm25_weight := 3/10, default_k := 5 } }

/-- C2 (counterexample): with no reranker configured, HYBRID_RERANK with
`k = 1` returns 2 documents, violating `len(documents) <= k`. -/
theorem retrieval_k_bound_counterexample :
    ¬((retrieve st_no_reranker (some 1) RetrievalStrategy.HYBRID_RERANK true
        none).documents.length ≤ 1) := by
  have e1 : "a.pdf" ++ "_" ++ toString (1 : ℤ) = "a.pdf_1" := by decide
  have e2 : "b.pdf" ++ "_" ++ toString (2 : ℤ) = "b.pdf_2" := by decide
  have e3 : ¬("a.pdf_1" : String) = "b.pdf_2" := by decide
  have e4 : ¬("b.pdf_2" : String) = "a.pdf_1" := by decide
  norm_num [retrieve, strategy_search, apply_governance, hybrid_search, vector_search,
    bm25_search, argsort_desc, normalize_scores, fused_entries, fuse_vector, fuse_bm25,
    sort_desc, py_or_weight, rerank, get_doc_id, st_no_reranker, doc_a, doc_b, e1, e2,
    e3, e4, List.insertionSort, List.orderedInsert]

/-- C2 (amended): `len(documents) == len(scores)` holds for every retrieve
call; `len(documents) ≤ k` holds for VECTOR_ONLY, BM25_ONLY and HYBRID
always, and for HYBRID_RERANK whenever a reranker is configured; without a
reranker HYBRID_RERANK only guarantees `len(documents) ≤ 2*k`, because the
degraded rerank stage returns the whole 2k-candidate shortlist without
truncating to k. -/
theorem retrieval_result_length_invariants
    (st : RetrieverState) (k : ℕ) (strategy : RetrievalStrategy)
    (af : Bool) (fkw : Option FilterKwargs) (hk : 1 ≤ k) :
    ((retrieve st (some k) strategy af fkw).documents.length =
      (retrieve st (some k) strategy af fkw).scores.length) ∧
    ((strategy ≠ RetrievalStrategy.HYBRID_RERANK ∨ st.reranker.isSome = true) →
      (retrieve st (some k) strategy af fkw).documents.length ≤ k) ∧
    (retrieve st (some k) strategy af fkw).documents.length ≤ 2 * k := by
  have hk0 : ¬k = 0 := by omega
  obtain ⟨hd, hs⟩ := retrieve_proj_eq st k strategy af fkw hk0
  rw [hd, hs]
  have hpair : (strategy_search st k strategy).1.length =
      (strategy_search st k strategy).2.length ∧
      ((strategy ≠ RetrievalStrategy.HYBRID_RERANK ∨ st.reranker.isSome = true) →
        (strategy_search st k strategy).1.length ≤ k) ∧
      (strategy_search st k strategy).1.length ≤ 2 * k := by
    cases strategy with
    | VECTOR_ONLY =>
      obtain ⟨h1, h2⟩ := vector_search_len st k
      exact ⟨h1, fun _ => h2, le_trans h2 (by omega)⟩
    | BM25_ONLY =>
      obtain ⟨h1, h2⟩ := bm25_search_len st k
      exact ⟨h1, fun _ => h2, le_trans h2 (by omega)⟩
    | HYBRID =>
      obtain ⟨h1, h2⟩ := hybrid_search_len st k none none
      exact ⟨h1, fun _ => h2, le_trans h2 (by omega)⟩
    | HYBRID_RERANK =>
      obtain ⟨h1, h2, h3⟩ :=
        rerank_len st (hybrid_search st (k * 2) none none).1 (some k)
      obtain ⟨hh1, hh2⟩ := hybrid_search_len st (k * 2) none none
      refine ⟨h1, ?_, ?_⟩
      · intro hcase
        rcases hcase with hne | hsome
        · exact absurd rfl hne
        · exact h3 k hsome rfl hk
      · rcases hr : st.reranker with _ | f
        · show (rerank st (hybrid_search st (k * 2) none none).1 (some k)).1.length ≤ 2 * k
          rw [h2 hr]
          omega
        · exact le_trans (h3 k (by rw [hr]; rfl) rfl hk) (by omega)
  obtain ⟨hp1, hp2, hp3⟩ := hpair
  obtain ⟨hg1, hg2⟩ := apply_governance_len (strategy_search st k strategy) af fkw hp1
  exact ⟨hg1, fun hcase => le_trans hg2 (hp2 hcase), le_trans hg2 hp3⟩

theorem retrieval_result_length_invariants_witness :
    (1 : ℕ) ≤ 1 ∧
    ((retrieve st_no_reranker (some 1) RetrievalStrategy.VECTOR_ONLY true
        none).documents.length =
      (retrieve st_no_reranker (some 1) RetrievalStrategy.VECTOR_ONLY true
        none).scores.length) :=
  ⟨le_refl 1,
   (retrieval_result_length_invariants st_no_reranker 1 RetrievalStrategy.VECTOR_ONLY
      true none (le_refl 1)).1⟩

/-! ### Claim C3: HYBRID_RERANK in reranker-degraded mode -/

/-- C3 (counterexample): with no reranker, HYBRID_RERANK with `k = 1` does
not return HYBRID's top-1 document list — it returns the whole 2-element
shortlist. -/
theorem hybrid_rerank_degraded_counterexample :
    (retrieve st_no_reranker (some 1) RetrievalStrategy.HYBRID_RERANK true
        none).documents ≠
      (retrieve st_no_reranker (some 1) RetrievalStrategy.HYBRID true
        none).documents := by
  have e1 : "a.pdf" ++ "_" ++ toString (1 : ℤ) = "a.pdf_1" := by decide
  have e2 : "b.pdf" ++ "_" ++ toString (2 : ℤ) = "b.pdf_2" := by decide
  have e3 : ¬("a.pdf_1" : String) = "b.pdf_2" := by decide
  have e4 : ¬("b.pdf_2" : String) = "a.pdf_1" := by decide
  norm_num [retrieve, strategy_search, apply_governance, hybrid_search, vector_search,
    bm25_search, argsort_desc, normalize_scores, fused_entries, fuse_vector, fuse_bm25,
    sort_desc, py_or_weight, rerank, get_doc_id, st_no_reranker, doc_a, doc_b, e1, e2,
    e3, e4, List.insertionSort, List.orderedInsert]

/-- C3 (amended): when no reranker is configured, HYBRID_RERANK returns
exactly the documents of the 2k-candidate fusion shortlist
(`hybrid_search(query, 2k)`), in shortlist order and without truncation to
k, with every score replaced by 1.0. -/
theorem hybrid_rerank_degraded_returns_shortlist
    (st : RetrieverState) (k : ℕ) (af : Bool)
    (hr : st.reranker = none) (hk : 1 ≤ k) :
    (retrieve st (some k) RetrievalStrategy.HYBRID_RERANK af none).documents =
      (hybrid_search st (k * 2) none none).1 ∧
    (retrieve st (some k) RetrievalStrategy.HYBRID_RERANK af none).scores =
      List.replicate (hybrid_search st (k * 2) none none).1.length 1 := by
  obtain ⟨hd, hs⟩ := retrieve_proj_eq st k RetrievalStrategy.HYBRID_RERANK af none
    (by omega)
  rw [hd, hs]
  have hsr : strategy_search st k RetrievalStrategy.HYBRID_RERANK =
      ((hybrid_search st (k * 2) none none).1,
        List.replicate (hybrid_search st (k * 2) none none).1.length 1) := by
    unfold strategy_search rerank
    rw [hr]
  rw [hsr]
  cases af <;> simp [apply_governance]

theorem hybrid_rerank_degraded_witness :
    st_no_reranker.reranker = none ∧ (1 : ℕ) ≤ 1 ∧
    (retrieve st_no_reranker (some 1) RetrievalStrategy.HYBRID_RERANK true
        none).documents = (hybrid_search st_no_reranker (1 * 2) none none).1 :=
  ⟨rfl, le_refl 1,
   (hybrid_rerank_degraded_returns_shortlist st_no_reranker 1 true rfl
      (le_refl 1)).1⟩

/-! ### Claim C5: fusion score correctness -/

/-- `doc_scores[doc_id]` on the association-list embedding of the dict. -/
def lookup_entry (l : List DocEntry) (id : String) : Option (Document × ℚ) :=
  (l.find? (fun e => decide (e.1 = id))).map (fun e => e.2)

/-- The per-document fused score exactly as the specification words it:
present in both lists → `vector*vw + bm25*bw`; present in one list → that
score times that method's weight only; absent → no entry. -/
def fused_spec (vpairs bpairs : List (Document × ℚ)) (vw bw : ℚ) (id : String) :
    Option (Document × ℚ) :=
  match vpairs.find? (fun p => decide (get_doc_id p.1 = id)),
        bpairs.find? (fun p => decide (get_doc_id p.1 = id)) with
  | some v, some b => some (v.1, v.2 * vw + b.2 * bw)
  | some v, none => some (v.1, v.2 * vw)
  | none, some b => some (b.1, b.2 * bw)
  | none, none => none

theorem fuse_vector_append (vw : ℚ) :
    ∀ (pairs : List (Document × ℚ)) (acc : List DocEntry),
      (pairs.map (fun p => get_doc_id p.1)).Nodup →
      (∀ p ∈ pairs, ∀ e ∈ acc, ¬e.1 = get_doc_id p.1) →
      pairs.foldl (fuse_vector_step vw) acc =
        acc ++ pairs.map (fun p => (get_doc_id p.1, p.1, p.2 * vw))
  | [], acc, _, _ => by simp
  | p :: rest, acc, hnd, hdisj => by
    rw [List.map_cons] at hnd
    have hnd' := List.nodup_cons.mp hnd
    have hany : acc.any (fun e => decide (e.1 = get_doc_id p.1)) = false := by
      rw [List.any_eq_false]
      intro e he
      simpa using hdisj p (List.mem_cons_self _ _) e he
    have hstep : fuse_vector_step vw acc p = acc ++ [(get_doc_id p.1, p.1, p.2 * vw)] := by
      unfold fuse_vector_step
      dsimp only
      rw [hany]
      simp
    rw [List.foldl_cons, hstep,
      fuse_vector_append vw rest (acc ++ [(get_doc_id p.1, p.1, p.2 * vw)]) hnd'.2 ?_]
    · simp
    · intro q hq e he
      rcases List.mem_append.mp he with h1 | h2
      · exact hdisj q (List.mem_cons_of_mem _ hq) e h1
      · rw [List.mem_singleton] at h2
        subst h2
        intro hcontra
        exact hnd'.1 (by
          rw [show get_doc_id p.1 = get_doc_id q.1 from hcontra]
          exact List.mem_map_of_mem _ hq)

theorem fuse_vector_lookup (vw : ℚ) (vpairs : List (Document × ℚ)) (id : String)
    (hv : (vpairs.map (fun p => get_doc_id p.1)).Nodup) :
    lookup_entry (fuse_vector vw vpairs) id =
      (vpairs.find? (fun p => decide (get_doc_id p.1 = id))).map
        (fun p => (p.1, p.2 * vw)) := by
  unfold fuse_vector lookup_entry
  rw [fuse_vector_append vw vpairs [] hv (by simp), List.nil_append, List.find?_map,
    Option.map_map]
  rfl

theorem lookup_entry_update (acc : List DocEntry) (qid : String) (w : ℚ) (id : String) :
    lookup_entry (acc.map (fun e => if e.1 = qid then (e.1, e.2.1, e.2.2 + w) else e)) id =
      if qid = id then (lookup_entry acc id).map (fun dv => (dv.1, dv.2 + w))
      else lookup_entry acc id := by
  unfold lookup_entry
  rw [List.find?_map]
  have hpred : ((fun e : DocEntry => decide (e.1 = id)) ∘
      (fun e : DocEntry => if e.1 = qid then (e.1, e.2.1, e.2.2 + w) else e)) =
      (fun e : DocEntry => decide (e.1 = id)) := by
    funext e
    by_cases h : e.1 = qid <;> simp [h]
  rw [hpred]
  by_cases hq : qid = id
  · subst hq
    cases hfind : acc.find? (fun e => decide (e.1 = qid)) with
    | none => simp
    | some e0 =>
      have he0 : e0.1 = qid := by simpa using List.find?_some hfind
      simp [he0]
  · cases hfind : acc.find? (fun e => decide (e.1 = id)) with
    | none => simp
    | some e0 =>
      have he0 : e0.1 = id := by simpa using List.find?_some hfind
      have hne : ¬e0.1 = qid := by
        rw [he0]
        exact fun hc => hq hc.symm
      simp [hq, hne]

theorem fuse_bm25_step_lookup (bw : ℚ) (acc : List DocEntry) (q : Document × ℚ)
    (id : String) :
    lookup_entry (fuse_bm25_step bw acc q) id =
      if get_doc_id q.1 = id then
        (match lookup_entry acc id with
         | some dv => some (dv.1, dv.2 + q.2 * bw)
         | none => some (q.1, q.2 * bw))
      else lookup_entry acc id := by
  unfold fuse_bm25_step
  dsimp only
  cases hfind : acc.find? (fun e => decide (e.1 = get_doc_id q.1)) with
  | none =>
    have hany : acc.any (fun e => decide (e.1 = get_doc_id q.1)) = false := by
      rw [List.any_eq_false]
      intro e he
      simpa using List.find?_eq_none.mp hfind e he
    rw [hany]
    simp only [Bool.false_eq_true, if_false]
    unfold lookup_entry
    rw [List.find?_append]
    by_cases hq : get_doc_id q.1 = id
    · rw [if_pos hq]
      have hacc_none : acc.find? (fun e : DocEntry => decide (e.1 = id)) = none := by
        rw [← hq]
        exact hfind
      have hlook : (acc.find? (fun e : DocEntry => decide (e.1 = id))).map
          (fun e : DocEntry => e.2) = none := by
        rw [hacc_none]
        rfl
      rw [hacc_none]
      simp [hlook, hq]
    · rw [if_neg hq]
      have hsingle : List.find? (fun e : DocEntry => decide (e.1 = id))
          [(get_doc_id q.1, q.1, q.2 * bw)] = none := by
        simp [hq]
      rw [hsingle]
      simp
  | some e0 =>
    have hany : acc.any (fun e => decide (e.1 = get_doc_id q.1)) = true := by
      rw [List.any_eq_true]
      refine ⟨e0, List.mem_of_find?_eq_some hfind, ?_⟩
      have h1 := List.find?_some hfind
      simpa using h1
    rw [hany]
    simp only [if_true]
    rw [lookup_entry_update]
    by_cases hq : get_doc_id q.1 = id
    · rw [if_pos hq, if_pos hq]
      have hlook : lookup_entry acc id = some e0.2 := by
        unfold lookup_entry
        rw [← hq, hfind]
        rfl
      rw [hlook]
      rfl
    · rw [if_neg hq, if_neg hq]

theorem fuse_bm25_lookup (bw : ℚ) :
    ∀ (pairs : List (Document × ℚ)) (acc : List DocEntry) (id : String),
      (pairs.map (fun p => get_doc_id p.1)).Nodup →
      lookup_entry (fuse_bm25 bw pairs acc) id =
        (match pairs.find? (fun p => decide (get_doc_id p.1 = id)), lookup_entry acc id with
         | some p, some dv => some (dv.1, dv.2 + p.2 * bw)
         | some p, none => some (p.1, p.2 * bw)
         | none, x => x)
  | [], acc, id, _ => by simp [fuse_bm25]
  | q :: rest, acc, id, hnd => by
    rw [List.map_cons] at hnd
    have hnd' := List.nodup_cons.mp hnd
    have hrec : fuse_bm25 bw (q :: rest) acc =
        fuse_bm25 bw rest (fuse_bm25_step bw acc q) := rfl
    rw [hrec, fuse_bm25_lookup bw rest (fuse_bm25_step bw acc q) id hnd'.2,
      fuse_bm25_step_lookup]
    by_cases hq : get_doc_id q.1 = id
    · rw [if_pos hq, List.find?_cons_of_pos _ (by simpa using hq)]
      have hrest_none : rest.find? (fun p => decide (get_doc_id p.1 = id)) = none := by
        rw [List.find?_eq_none]
        intro x hx
        simp only [decide_eq_true_eq]
        intro hcontra
        exact hnd'.1 (by
          rw [hq, ← hcontra]
          exact List.mem_map_of_mem _ hx)
      rw [hrest_none]
      cases lookup_entry acc id <;> rfl
    · rw [if_neg hq, List.find?_cons_of_neg _ (by simpa using hq)]

theorem sort_desc_sorted (l : List (Document × ℚ)) :
    (sort_desc l).Pairwise (fun a b : Document × ℚ => b.2 ≤ a.2) := by
  haveI h1 : IsTotal (Document × ℚ) (fun a b : Document × ℚ => b.2 ≤ a.2) :=
    ⟨fun a b => le_total b.2 a.2⟩
  haveI h2 : IsTrans (Document × ℚ) (fun a b : Document × ℚ => b.2 ≤ a.2) :=
    ⟨fun a b c hab hbc => le_trans hbc hab⟩
  exact List.sorted_insertionSort _ l

/-- C5: with distinct doc ids within each normalized input list, the
`doc_scores` dict built by the two fusion loops maps every id exactly as
the spec words it — both lists → `vector*vw + bm25*bw`; vector only →
`vector*vw`; bm25 only → `bm25*bw`; absent → no entry — and the fused
output list is sorted descending by fused score and truncated to `k`. -/
theorem fusion_score_correct
    (vpairs bpairs : List (Document × ℚ)) (vw bw : ℚ) (k : ℕ)
    (hv : (vpairs.map (fun p => get_doc_id p.1)).Nodup)
    (hb : (bpairs.map (fun p => get_doc_id p.1)).Nodup) :
    (∀ id : String,
      lookup_entry (fused_entries vw bw vpairs bpairs) id =
        fused_spec vpairs bpairs vw bw id) ∧
    ((sort_desc ((fused_entries vw bw vpairs bpairs).map (fun e => e.2))).take k).Pairwise
      (fun a b : Document × ℚ => b.2 ≤ a.2) ∧
    ((sort_desc ((fused_entries vw bw vpairs bpairs).map (fun e => e.2))).take k).length
      ≤ k := by
  refine ⟨?_, ?_, ?_⟩
  · intro id
    unfold fused_entries
    rw [fuse_bm25_lookup bw bpairs (fuse_vector vw vpairs) id hb,
      fuse_vector_lookup vw vpairs id hv]
    unfold fused_spec
    cases vpairs.find? (fun p => decide (get_doc_id p.1 = id)) with
    | none =>
      cases bpairs.find? (fun p => decide (get_doc_id p.1 = id)) with
      | none => rfl
      | some b => rfl
    | some v =>
      cases bpairs.find? (fun p => decide (get_doc_id p.1 = id)) with
      | none => rfl
      | some b => rfl
  · exact List.Pairwise.sublist (List.take_sublist _ _) (sort_desc_sorted _)
  · simp only [List.length_take]
    omega

theorem fusion_score_correct_witness :
    ((([(doc_a, (1 : ℚ))]).map (fun p => get_doc_id p.1)).Nodup ∧
      (([(doc_b, (1 : ℚ))]).map (fun p => get_doc_id p.1)).Nodup) ∧
    (∀ id : String,
      lookup_entry (fused_entries (1/2) (1/2) [(doc_a, 1)] [(doc_b, 1)]) id =
        fused_spec [(doc_a, 1)] [(doc_b, 1)] (1/2) (1/2) id) :=
  ⟨⟨by decide, by decide⟩,
   (fusion_score_correct [(doc_a, 1)] [(doc_b, 1)] (1/2) (1/2) 2
      (by decide) (by decide)).1⟩

/-! ### Claim C4: hybrid with weights (1, 0) versus pure vector search -/

theorem normalize_scores_length (l : List ℚ) :
    (normalize_scores l).length = l.length := by
  match l with
  | [] => rfl
  | s :: t =>
    rw [show normalize_scores (s :: t) =
        (if t.foldl max s = t.foldl min s then List.replicate (s :: t).length 1
         else (s :: t).map (fun x =>
           (x - t.foldl min s) / (t.foldl max s - t.foldl min s))) from rfl]
    split_ifs <;> simp

theorem normalize_scores_nonneg (l : List ℚ) : ∀ x ∈ normalize_scores l, 0 ≤ x := by
  match l with
  | [] => simp [normalize_scores]
  | s :: t =>
    intro x hx
    rw [show normalize_scores (s :: t) =
        (if t.foldl max s = t.foldl min s then List.replicate (s :: t).length 1
         else (s :: t).map (fun y =>
           (y - t.foldl min s) / (t.foldl max s - t.foldl min s))) from rfl] at hx
    by_cases h : t.foldl max s = t.foldl min s
    · rw [if_pos h] at hx
      rw [List.eq_of_mem_replicate hx]
      norm_num
    · rw [if_neg h] at hx
      rcases List.mem_map.mp hx with ⟨y, hy, rfl⟩
      have h1 : t.foldl min s ≤ y := foldl_min_le t s y hy
      have h2 : t.foldl min s ≤ t.foldl max s :=
        le_trans (foldl_min_le t s s (List.mem_cons_self _ _))
          (le_foldl_max t s s (List.mem_cons_self _ _))
      have h3 : t.foldl min s < t.foldl max s := lt_of_le_of_ne h2 (Ne.symm h)
      exact div_nonneg (by linarith) (by linarith)

theorem pairwise_replicate_one (n : ℕ) :
    (List.replicate n (1 : ℚ)).Pairwise (fun a b : ℚ => b ≤ a) := by
  induction n with
  | zero => exact List.Pairwise.nil
  | succ m ih =>
    rw [List.replicate_succ]
    refine List.Pairwise.cons ?_ ih
    intro b hb
    rw [List.eq_of_mem_replicate hb]

theorem normalize_scores_pairwise (l : List ℚ)
    (h : l.Pairwise (fun a b : ℚ => b ≤ a)) :
    (normalize_scores l).Pairwise (fun a b : ℚ => b ≤ a) := by
  match l with
  | [] => exact List.Pairwise.nil
  | s :: t =>
    rw [show normalize_scores (s :: t) =
        (if t.foldl max s = t.foldl min s then List.replicate (s :: t).length 1
         else (s :: t).map (fun y =>
           (y - t.foldl min s) / (t.foldl max s - t.foldl min s))) from rfl]
    split_ifs with hc
    · exact pairwise_replicate_one _
    · refine List.Pairwise.map _ ?_ h
      intro a b hab
      have h2 : t.foldl min s ≤ t.foldl max s :=
        le_trans (foldl_min_le t s s (List.mem_cons_self _ _))
          (le_foldl_max t s s (List.mem_cons_self _ _))
      have h3 : t.foldl min s < t.foldl max s := lt_of_le_of_ne h2 (Ne.symm hc)
      exact div_le_div_of_nonneg_right (by linarith) (by linarith)

theorem pairwise_zip_snd : ∀ (l : List Document) (m : List ℚ),
    m.Pairwise (fun a b : ℚ => b ≤ a) →
    (l.zip m).Pairwise (fun a b : Document × ℚ => b.2 ≤ a.2)
  | [], _, _ => by simp
  | _ :: _, [], _ => by simp
  | a :: l, x :: m, h => by
    rw [List.zip_cons_cons]
    refine List.Pairwise.cons ?_ (pairwise_zip_snd l m (List.Pairwise.of_cons h))
    intro y hy
    exact List.rel_of_pairwise_cons h (List.of_mem_zip hy).2

theorem pairwise_of_all_zero (l : List (Document × ℚ)) (h : ∀ x ∈ l, x.2 = 0) :
    l.Pairwise (fun a b : Document × ℚ => b.2 ≤ a.2) := by
  induction l with
  | nil => exact List.Pairwise.nil
  | cons a t ih =>
    refine List.Pairwise.cons ?_ (ih fun x hx => h x (List.mem_cons_of_mem _ hx))
    intro b hb
    rw [h a (List.mem_cons_self _ _), h b (List.mem_cons_of_mem _ hb)]

theorem fuse_bm25_step_zero (acc : List DocEntry) (q : Document × ℚ) :
    fuse_bm25_step 0 acc q = acc ∨
      fuse_bm25_step 0 acc q = acc ++ [(get_doc_id q.1, q.1, 0)] := by
  unfold fuse_bm25_step
  dsimp only
  by_cases h : acc.any (fun e => decide (e.1 = get_doc_id q.1)) = true
  · left
    rw [if_pos h]
    have hupd : (fun e : DocEntry =>
        if e.1 = get_doc_id q.1 then (e.1, e.2.1, e.2.2 + q.2 * 0) else e) = id := by
      funext e
      by_cases he : e.1 = get_doc_id q.1
      · rw [if_pos he]
        show (e.1, e.2.1, e.2.2 + q.2 * 0) = e
        rw [mul_zero, add_zero]
      · rw [if_neg he]
        rfl
    rw [hupd, List.map_id]
  · right
    rw [if_neg h, mul_zero]

theorem fuse_bm25_zero_append : ∀ (bpairs : List (Document × ℚ)) (acc : List DocEntry),
    ∃ tail : List DocEntry,
      fuse_bm25 0 bpairs acc = acc ++ tail ∧ ∀ e ∈ tail, e.2.2 = 0
  | [], acc => ⟨[], by simp [fuse_bm25], by simp⟩
  | q :: rest, acc => by
    have hrec : fuse_bm25 0 (q :: rest) acc =
        fuse_bm25 0 rest (fuse_bm25_step 0 acc q) := rfl
    obtain ⟨tail, ht1, ht2⟩ := fuse_bm25_zero_append rest (fuse_bm25_step 0 acc q)
    rcases fuse_bm25_step_zero acc q with h | h
    · exact ⟨tail, by rw [hrec, ht1, h], ht2⟩
    · refine ⟨(get_doc_id q.1, q.1, 0) :: tail, ?_, ?_⟩
      · rw [hrec, ht1, h]
        simp
      · intro e he
        rcases List.mem_cons.mp he with rfl | h2
        · rfl
        · exact ht2 e h2

/-- C4 (amended): passing `bm25_weight=0` is ignored — Python's
`bm25_weight or config` treats 0.0 as falsy and substitutes the configured
weight.  When the configured bm25 weight is itself 0, and the vector
ranking has pairwise-distinct doc ids, non-increasing scores and at least
k entries, `hybrid_search` with `vector_weight=1, bm25_weight=0` returns
exactly the same documents in the same order as `vector_search` truncated
to k. -/
theorem hybrid_unit_weights_match_vector_search
    (st : RetrieverState) (k : ℕ)
    (hcfg : st.config.bm25_weight = 0)
    (hnd : (st.vres.map (fun p => get_doc_id p.1)).Nodup)
    (hsort : st.vres.Pairwise (fun a b : Document × ℚ => b.2 ≤ a.2))
    (hk : k ≤ st.vres.length) :
    (hybrid_search st k (some 1) (some 0)).1 = (vector_search st k).1 := by
  have hw1 : py_or_weight (some 1) st.config.vector_weight = 1 := by
    simp [py_or_weight]
  have hw0 : py_or_weight (some 0) st.config.bm25_weight = 0 := by
    simp [py_or_weight, hcfg]
  unfold hybrid_search
  dsimp only
  rw [hw1, hw0]
  set vdocs := (vector_search st (k * 2)).1 with hvdocs
  set vscores := (vector_search st (k * 2)).2 with hvscores
  set bdocs := (bm25_search st (k * 2)).1 with hbdocs
  set bscores := (bm25_search st (k * 2)).2 with hbscores
  set vnorm := normalize_scores vscores with hvnorm
  set bnorm := normalize_scores bscores with hbnorm
  set vpairs := vdocs.zip vnorm with hvpairs
  set bpairs := bdocs.zip bnorm with hbpairs
  have hlen_vd : vdocs.length = (st.vres.take (k * 2)).length := by
    rw [hvdocs]
    unfold vector_search
    simp
  have hlen_vs : vscores.length = vdocs.length := by
    rw [hvscores, hvdocs]
    unfold vector_search
    simp
  have hlen_vn : vnorm.length = vdocs.length := by
    rw [hvnorm, normalize_scores_length, hlen_vs]
  have hmapfst : vpairs.map Prod.fst = vdocs := by
    rw [hvpairs]
    exact List.map_fst_zip _ _ (by rw [hlen_vn])
  have hids : (vpairs.map (fun p => get_doc_id p.1)).Nodup := by
    have hmm : vpairs.map (fun p => get_doc_id p.1) =
        (vpairs.map Prod.fst).map get_doc_id := by
      rw [List.map_map]
      rfl
    rw [hmm, hmapfst, hvdocs]
    unfold vector_search
    dsimp only
    rw [List.map_map]
    refine List.Nodup.sublist (List.Sublist.map _ (List.take_sublist _ _)) ?_
    exact hnd
  have hfv : fuse_vector 1 vpairs =
      vpairs.map (fun p => (get_doc_id p.1, p.1, p.2 * 1)) := by
    unfold fuse_vector
    rw [fuse_vector_append 1 vpairs [] hids (by simp), List.nil_append]
  obtain ⟨tail, htail, htail0⟩ := fuse_bm25_zero_append bpairs (fuse_vector 1 vpairs)
  have hentries : fused_entries 1 0 vpairs bpairs =
      vpairs.map (fun p => (get_doc_id p.1, p.1, p.2 * 1)) ++ tail := by
    unfold fused_entries
    rw [htail, hfv]
  have hvalues_eq : (fused_entries 1 0 vpairs bpairs).map (fun e => e.2) =
      vpairs.map (fun p => (p.1, p.2 * 1)) ++ tail.map (fun e => e.2) := by
    rw [hentries, List.map_append, List.map_map]
    rfl
  have hvs_sorted : vscores.Pairwise (fun a b : ℚ => b ≤ a) := by
    rw [hvscores]
    unfold vector_search
    dsimp only
    rw [List.pairwise_map]
    exact List.Pairwise.sublist (List.take_sublist _ _) hsort
  have hvn_sorted : vnorm.Pairwise (fun a b : ℚ => b ≤ a) := by
    rw [hvnorm]
    exact normalize_scores_pairwise vscores hvs_sorted
  have hvp_sorted : vpairs.Pairwise (fun a b : Document × ℚ => b.2 ≤ a.2) := by
    rw [hvpairs]
    exact pairwise_zip_snd vdocs vnorm hvn_sorted
  have hvpart_sorted : (vpairs.map (fun p : Document × ℚ => (p.1, p.2 * 1))).Pairwise
      (fun a b : Document × ℚ => b.2 ≤ a.2) := by
    refine List.Pairwise.map _ ?_ hvp_sorted
    intro a b hab
    show b.2 * 1 ≤ a.2 * 1
    rw [mul_one, mul_one]
    exact hab
  have htail_sorted : (tail.map (fun e : DocEntry => e.2)).Pairwise
      (fun a b : Document × ℚ => b.2 ≤ a.2) := by
    refine pairwise_of_all_zero _ ?_
    intro x hx
    rcases List.mem_map.mp hx with ⟨e, he, rfl⟩
    exact htail0 e he
  have hcross : ∀ a ∈ vpairs.map (fun p : Document × ℚ => (p.1, p.2 * 1)),
      ∀ b ∈ tail.map (fun e : DocEntry => e.2), b.2 ≤ a.2 := by
    intro a ha b hb
    rcases List.mem_map.mp ha with ⟨p, hp, rfl⟩
    rcases List.mem_map.mp hb with ⟨e, he, rfl⟩
    have hb0 : (e.2).2 = 0 := htail0 e he
    have hp2 : p.2 ∈ vnorm := by
      rw [hvpairs] at hp
      exact (List.of_mem_zip hp).2
    have hp0 : 0 ≤ p.2 := by
      rw [hvnorm] at hp2
      exact normalize_scores_nonneg vscores p.2 hp2
    show (e.2).2 ≤ p.2 * 1
    rw [hb0, mul_one]
    exact hp0
  have hvalues_sorted : ((fused_entries 1 0 vpairs bpairs).map (fun e => e.2)).Pairwise
      (fun a b : Document × ℚ => b.2 ≤ a.2) := by
    rw [hvalues_eq, List.pairwise_append]
    exact ⟨hvpart_sorted, htail_sorted, hcross⟩
  have hsort_eq : sort_desc ((fused_entries 1 0 vpairs bpairs).map (fun e => e.2)) =
      (fused_entries 1 0 vpairs bpairs).map (fun e => e.2) := by
    unfold sort_desc
    exact List.Sorted.insertionSort_eq hvalues_sorted
  have hk_le : k ≤ (vpairs.map (fun p : Document × ℚ => (p.1, p.2 * 1))).length := by
    rw [List.length_map, hvpairs, List.length_zip, hlen_vn, hlen_vd, List.length_take]
    omega
  rw [hsort_eq, hvalues_eq, List.take_append_of_le_length hk_le]
  rw [← List.map_take, List.map_map]
  rw [show ((fun e : Document × ℚ => e.1) ∘ (fun p : Document × ℚ => (p.1, p.2 * 1))) =
      Prod.fst from rfl]
  rw [List.map_take, hmapfst, hvdocs]
  unfold vector_search
  dsimp only
  rw [← List.map_take, List.take_take]
  have hmin : k ⊓ (k * 2) = k := by omega
  rw [hmin]

/-- Third document for the C4 counterexample, retrieved only by BM25. -/
def doc_c : Document :=
  { page_content := "gamma", metadata := { source := some "c.pdf", page := some 3 } }

/-- C4 counterexample state: configured weights (0.7, 0.3); the BM25
corpus holds only `doc_c`. -/
def st_c4 : RetrieverState :=
  { vres := [(doc_a, 1), (doc_b, 0)],
    bm25_documents := [doc_c],
    bm25_scores := [5],
    reranker := none,
    config := { vector_weight := 7/10, bm25_weight := 3/10, default_k := 5 } }

/-- C4 (counterexample): `hybrid_search(k=2, vector_weight=1,
bm25_weight=0)` does not return `vector_search`'s top-2 `[doc_a, doc_b]`:
the passed 0.0 weight is falsy, so the configured 0.3 applies and the
BM25-only `doc_c` outranks `doc_b`, giving `[doc_a, doc_c]`. -/
theorem hybrid_zero_bm25_weight_counterexample :
    (hybrid_search st_c4 2 (some 1) (some 0)).1 ≠ (vector_search st_c4 2).1 := by
  have e1 : "a.pdf" ++ "_" ++ toString (1 : ℤ) = "a.pdf_1" := by decide
  have e2 : "b.pdf" ++ "_" ++ toString (2 : ℤ) = "b.pdf_2" := by decide
  have e5 : "c.pdf" ++ "_" ++ toString (3 : ℤ) = "c.pdf_3" := by decide
  have e3 : ¬("a.pdf_1" : String) = "b.pdf_2" := by decide
  have e4 : ¬("b.pdf_2" : String) = "a.pdf_1" := by decide
  have e6 : ¬("c.pdf_3" : String) = "a.pdf_1" := by decide
  have e7 : ¬("c.pdf_3" : String) = "b.pdf_2" := by decide
  have e8 : ¬("a.pdf_1" : String) = "c.pdf_3" := by decide
  have e9 : ¬("b.pdf_2" : String) = "c.pdf_3" := by decide
  norm_num [hybrid_search, vector_search, bm25_search, argsort_desc, normalize_scores,
    fused_entries, fuse_vector, fuse_vector_step, fuse_bm25, fuse_bm25_step, sort_desc,
    py_or_weight, get_doc_id, st_c4, doc_a, doc_b, doc_c, e1, e2, e3, e4, e5, e6, e7,
    e8, e9, List.insertionSort, List.orderedInsert]

/-- C4 witness state: as `st_c4` but with configured bm25 weight 0. -/
def st_c4_zero : RetrieverState :=
  { vres := [(doc_a, 1), (doc_b, 0)],
    bm25_documents := [doc_c],
    bm25_scores := [5],
    reranker := none,
    config := { vector_weight := 7/10, bm25_weight := 0, default_k := 5 } }

theorem hybrid_unit_weights_witness :
    (st_c4_zero.config.bm25_weight = 0 ∧
      (st_c4_zero.vres.map (fun p => get_doc_id p.1)).Nodup ∧
      st_c4_zero.vres.Pairwise (fun a b : Document × ℚ => b.2 ≤ a.2) ∧
      1 ≤ st_c4_zero.vres.length) ∧
    (hybrid_search st_c4_zero 1 (some 1) (some 0)).1 = (vector_search st_c4_zero 1).1 :=
  ⟨⟨rfl, by decide, by norm_num [st_c4_zero, doc_a, doc_b, List.pairwise_cons],
    by norm_num [st_c4_zero]⟩,
   hybrid_unit_weights_match_vector_search st_c4_zero 1 rfl (by decide)
     (by norm_num [st_c4_zero, doc_a, doc_b, List.pairwise_cons])
     (by norm_num [st_c4_zero])⟩
